import Mathlib

/-!
Verification of the regex cutting-lab plugin (`main.py`).

The development shallowly embeds the plugin's rule pipeline:
loosely-typed configuration values become the inductive `PyVal`;
the Python `re` module is abstracted as a `RegexEngine` parameter
(compilation may fail, substitution is a total string function);
the plugin object's mutable fields become the explicit `LabState`
threaded through `ensure_rules` and the two hook functions.
-/

/-- A dynamically typed configuration value (the subset of Python values
the plugin inspects: `None`, booleans, integers, strings, lists, dicts). -/
inductive PyVal where
  | none
  | bool (b : Bool)
  | int (n : Int)
  | str (s : String)
  | list (xs : List PyVal)
  | dict (entries : List (String × PyVal))

/-- Python truthiness (`bool(v)`) for the modelled values. -/
def truthy : PyVal → Bool
  | PyVal.none => false
  | PyVal.bool b => b
  | PyVal.int n => decide (n ≠ 0)
  | PyVal.str s => decide (s ≠ "")
  | PyVal.list xs => !xs.isEmpty
  | PyVal.dict es => !es.isEmpty

/-- A single-quote character, used by the `repr` rendering of strings. -/
def pyQuote : String := String.singleton (Char.ofNat 39)

mutual

/-- Python `repr(v)` for the modelled values (string escaping elided:
the embedded quotes are rendered, inner escapes are not). -/
def pyRepr : PyVal → String
  | PyVal.none => "None"
  | PyVal.bool b => if b then "True" else "False"
  | PyVal.int n => toString n
  | PyVal.str s => pyQuote ++ s ++ pyQuote
  | PyVal.list xs => "[" ++ pyReprList xs ++ "]"
  | PyVal.dict es => "\x7b" ++ pyReprDict es ++ "\x7d"

/-- Comma-separated `repr` of list elements. -/
def pyReprList : List PyVal → String
  | [] => ""
  | [x] => pyRepr x
  | x :: y :: rest => pyRepr x ++ ", " ++ pyReprList (y :: rest)

/-- Comma-separated `repr` of dict entries. -/
def pyReprDict : List (String × PyVal) → String
  | [] => ""
  | [(k, v)] => pyQuote ++ k ++ pyQuote ++ ": " ++ pyRepr v
  | (k, v) :: e :: rest => pyQuote ++ k ++ pyQuote ++ ": " ++ pyRepr v ++ ", " ++ pyReprDict (e :: rest)

end

/-- Python `str(v)`: identity on strings, `repr` otherwise. -/
def pyStr : PyVal → String
  | PyVal.str s => s
  | v => pyRepr v

/-- Python `str.strip()` with no argument: remove leading and trailing
whitespace (list-based so every proof can evaluate it). -/
def pyStrip (s : String) : String :=
  String.mk (((s.data.dropWhile Char.isWhitespace).reverse.dropWhile Char.isWhitespace).reverse)

/-- ASCII `str.lower()` on one character (Unicode case folding elided; the
scope keywords the plugin compares against are ASCII). -/
def pyCharLower (c : Char) : Char :=
  if 65 ≤ c.toNat ∧ c.toNat ≤ 90 then Char.ofNat (c.toNat + 32) else c

/-- ASCII `str.upper()` on one character. -/
def pyCharUpper (c : Char) : Char :=
  if 97 ≤ c.toNat ∧ c.toNat ≤ 122 then Char.ofNat (c.toNat - 32) else c

/-- Python `str.lower()` (ASCII model). -/
def pyLower (s : String) : String := String.mk (s.data.map pyCharLower)

/-- Python `str.upper()` (ASCII model). -/
def pyUpper (s : String) : String := String.mk (s.data.map pyCharUpper)

/-- Split a character list at every delimiter character. Collapsing of
delimiter runs differs from `re.split(r"[|,\s]+", ...)` only in extra empty
pieces, which the caller filters out. -/
def splitChars (p : Char → Bool) : List Char → List (List Char)
  | [] => [[]]
  | c :: rest =>
    match splitChars p rest with
    | [] => [[]]
    | grp :: rest2 => if p c then [] :: grp :: rest2 else (c :: grp) :: rest2

/-- Digits of a decimal literal to a number; `Option.none` unless the character
list is nonempty and all ASCII digits. -/
def digitsToNat : List Char → Option Nat
  | [] => Option.none
  | cs =>
    if cs.all Char.isDigit then
      some (cs.foldl (fun acc c => acc * 10 + (c.toNat - 48)) 0)
    else Option.none

/-- Python `int(s)` on a string: surrounding whitespace stripped, optional
sign, decimal digits (digit-group underscores elided). -/
def parseIntStr (s : String) : Option Int :=
  match (pyStrip s).data with
  | [] => Option.none
  | c :: rest =>
    if c = '+' then (digitsToNat rest).map Int.ofNat
    else if c = '-' then (digitsToNat rest).map (fun n => -(n : Int))
    else (digitsToNat (c :: rest)).map Int.ofNat

/-- Python `int(v)`: `Option.none` models the `TypeError`/`ValueError` cases
caught by `_safe_int`. -/
def pyToInt : PyVal → Option Int
  | PyVal.bool b => some (if b then 1 else 0)
  | PyVal.int n => some n
  | PyVal.str s => parseIntStr s
  | _ => Option.none

/-- Source `_safe_int`: `int(value)` with a fallback on failure. -/
def safe_int (value : PyVal) (fallback : Int) : Int :=
  match pyToInt value with
  | some n => n
  | Option.none => fallback

/-- First-match association-list lookup (Python dict keys are unique, so
first match is the dict lookup). -/
def pyLookup : List (String × PyVal) → String → Option PyVal
  | [], _ => Option.none
  | (k, v) :: rest, key => if k = key then some v else pyLookup rest key

/-- Python `item.get(key, default)` on a dict value; non-dicts yield the default
(the source only calls this on values checked to be dicts). -/
def itemGet (item : PyVal) (key : String) (default : PyVal) : PyVal :=
  match item with
  | PyVal.dict es =>
    match pyLookup es key with
    | some v => v
    | Option.none => default
  | _ => default

/-- Python `isinstance(item, dict)`. -/
def isDict : PyVal → Bool
  | PyVal.dict _ => true
  | _ => false

/-- Python `d[key] = v` on an association list: replace the binding if present,
append it otherwise. -/
def setKey : List (String × PyVal) → String → PyVal → List (String × PyVal)
  | [], key, v => [(key, v)]
  | (k, w) :: rest, key, v =>
    if k = key then (key, v) :: rest else (k, w) :: setKey rest key v

/-- Python `d[key] = v` on a dict value. -/
def dictSet (d : PyVal) (key : String) (v : PyVal) : PyVal :=
  match d with
  | PyVal.dict es => PyVal.dict (setKey es key v)
  | other => other

/-- Source `_SCOPE_OPTIONS`. -/
def scopeOptions : List String := ["user_input", "ai_output", "both"]

/-- Source `_normalize_scope`: strip/lowercase a string scope and keep it when
recognized; everything else falls back to `"ai_output"`. -/
def normalize_scope : PyVal → String
  | PyVal.str s =>
    let normalized := pyLower (pyStrip s)
    if scopeOptions.contains normalized then normalized else "ai_output"
  | _ => "ai_output"

/-- Delimiter class of the source's `re.split(r"[|,\s]+", ...)`. -/
def isFlagDelim (c : Char) : Bool := c = '|' || c = ',' || c.isWhitespace

/-- Source `_normalize_flags`: a string is split on delimiter runs; an iterable
(list, or dict iterated over its keys) is mapped through
`str(token).strip().upper()`; anything else yields no tokens. -/
def normalize_flags : PyVal → List String
  | PyVal.str s =>
    (((splitChars isFlagDelim s.data).map String.mk).filter (fun t => pyStrip t ≠ "")).map
      (fun t => pyUpper (pyStrip t))
  | PyVal.list xs =>
    xs.filterMap (fun token =>
      let normalized := pyUpper (pyStrip (pyStr token))
      if normalized ≠ "" then some normalized else Option.none)
  | PyVal.dict es =>
    es.filterMap (fun kv =>
      let normalized := pyUpper (pyStrip kv.1)
      if normalized ≠ "" then some normalized else Option.none)
  | _ => []

/-- Source `_FLAG_SYMBOLS` with the numeric values of the CPython `re` flags. -/
def flagSymbols : List (String × Nat) :=
  [("ASCII", 256), ("IGNORECASE", 2), ("LOCALE", 4), ("MULTILINE", 8),
   ("DOTALL", 16), ("VERBOSE", 64), ("UNICODE", 32)]

/-- Source `_flags_to_value`: OR together recognized flag tokens, skipping
unrecognized ones. -/
def flags_to_value (tokens : List String) : Nat :=
  tokens.foldl
    (fun value token =>
      match flagSymbols.lookup token with
      | some flagValue => value ||| flagValue
      | Option.none => value)
    0

/-- The regex engine the plugin delegates to (`re.compile` / `Pattern.sub`):
compilation of a pattern text under a flag bitmask may fail, and a compiled
pattern substitutes globally into a text given a replacement. -/
structure RegexEngine (π : Type) where
  compile : String → Nat → Option π
  sub : π → String → String → String

/-- Source dataclass `RuntimeRegexRule`. -/
structure RuntimeRegexRule (π : Type) where
  identifier : String
  scope : String
  order : Int
  compiled : π
  replacement : String
  origin_index : Nat

/-- Source method `RuntimeRegexRule.applies_to`. -/
def RuntimeRegexRule.applies_to {π : Type} (self : RuntimeRegexRule π) (target_scope : String) : Bool :=
  if target_scope = "user_input" then self.scope = "user_input" || self.scope = "both"
  else if target_scope = "ai_output" then self.scope = "ai_output" || self.scope = "both"
  else false

/-- One fingerprint tuple of the configuration signature
(`(name, scope, str(pattern), replacement, flags, enabled, order)`). -/
structure SigEntry where
  name : String
  scope : String
  pattern : String
  replacement : String
  flags : List String
  enabled : Bool
  order : Int
deriving DecidableEq

/-- Field extraction and coercion for one record-shaped entry
(lines 109-128 of the source, shared by the signature and the candidate). -/
def normalizeEntry (index : Nat) (item : PyVal) : SigEntry :=
  let nameVal := itemGet item "name" PyVal.none
  { name := if truthy nameVal then pyStr nameVal else "Rule " ++ toString (index + 1)
    scope := normalize_scope (itemGet item "scope" PyVal.none)
    pattern := pyStr (itemGet item "pattern" (PyVal.str ""))
    replacement :=
      match itemGet item "replacement" (PyVal.str "") with
      | PyVal.none => ""
      | v => pyStr v
    flags := normalize_flags (itemGet item "flags" (PyVal.list []))
    enabled := truthy (itemGet item "enabled" (PyVal.bool true))
    order := safe_int (itemGet item "order" PyVal.none) ((index + 1) * 100) }

/-- The candidate rule built from one entry (lines 130-161): absent when the
entry is disabled, its pattern text is falsy, or compilation fails. -/
def compileEntry {π : Type} (E : RegexEngine π) (index : Nat) (item : PyVal) :
    Option (RuntimeRegexRule π) :=
  let sig := normalizeEntry index item
  if !sig.enabled then Option.none
  else if !truthy (itemGet item "pattern" (PyVal.str "")) then Option.none
  else
    match E.compile sig.pattern (flags_to_value sig.flags) with
    | some compiled_pattern =>
      some { identifier := sig.name, scope := sig.scope, order := sig.order,
             compiled := compiled_pattern, replacement := sig.replacement,
             origin_index := index }
    | Option.none => Option.none

/-- The enumeration loop of `_ensure_rules` (lines 102-161): builds the
signature list and the candidate list in one pass; non-dict entries are
skipped entirely and contribute to neither list. -/
def buildLists {π : Type} (E : RegexEngine π) : Nat → List PyVal → List SigEntry × List (RuntimeRegexRule π)
  | _, [] => ([], [])
  | index, item :: rest =>
    let tail := buildLists E (index + 1) rest
    if isDict item then
      (normalizeEntry index item :: tail.1,
       match compileEntry E index item with
       | some r => r :: tail.2
       | Option.none => tail.2)
    else tail

/-- Python `config.get(key, default)`. -/
def configGet (config : List (String × PyVal)) (key : String) (default : PyVal) : PyVal :=
  match pyLookup config key with
  | some v => v
  | Option.none => default

/-- Raw rule-list selection of `_ensure_rules` (lines 73-97): prefer a
non-blank `rules_json` string that parses (via `jloads`, the `json.loads`
stand-in) to a list; otherwise fall back to a list-valued `rules` field.
An empty (falsy) config yields no rules. -/
def rawRules (jloads : String → Option PyVal) (config : List (String × PyVal)) : List PyVal :=
  if config.isEmpty then []
  else
    let raw1 : List PyVal :=
      match pyLookup config "rules_json" with
      | some (PyVal.str s) =>
        if pyStrip s ≠ "" then
          match jloads s with
          | some (PyVal.list parsed) => parsed
          | _ => []
        else []
      | _ => []
    if raw1.isEmpty then
      match pyLookup config "rules" with
      | some (PyVal.list legacy) => legacy
      | _ => []
    else raw1

/-- The `rules` fallback value by itself. -/
def legacyOf (config : List (String × PyVal)) : List PyVal :=
  match pyLookup config "rules" with
  | some (PyVal.list legacy) => legacy
  | _ => []

/-- The plugin object's cached state (`_compiled_rules`, `_signature`,
`_has_user_scoped_rules`, `_has_ai_scoped_rules`). -/
structure LabState (π : Type) where
  compiledRules : List (RuntimeRegexRule π)
  signature : List SigEntry
  hasUserScopedRules : Bool
  hasAiScopedRules : Bool

/-- The state set up by `__init__`. -/
def initState {π : Type} : LabState π :=
  { compiledRules := [], signature := [], hasUserScopedRules := false,
    hasAiScopedRules := false }

/-- The sort key comparison of `candidates.sort(key=lambda rule:
(rule.order, rule.origin_index))`: lexicographic order on the key pair. -/
def ruleLe {π : Type} (a b : RuntimeRegexRule π) : Bool :=
  decide (a.order < b.order) ||
    (decide (a.order = b.order) && decide (a.origin_index ≤ b.origin_index))

/-- The stable ascending sort of the candidate list. -/
def sortRules {π : Type} (cands : List (RuntimeRegexRule π)) : List (RuntimeRegexRule π) :=
  cands.mergeSort ruleLe

/-- Source `_ensure_rules` (lines 71-182) as a state transition. The returned
boolean records whether recompilation happened and the one-line summary was
logged; when the computed signature equals the stored one the state is
returned untouched and nothing is logged. -/
def ensure_rules {π : Type} (E : RegexEngine π) (jloads : String → Option PyVal)
    (config : List (String × PyVal)) (st : LabState π) : LabState π × Bool :=
  let pair := buildLists E 0 (rawRules jloads config)
  if pair.1 = st.signature then (st, false)
  else
    let sorted := sortRules pair.2
    ({ compiledRules := sorted
       signature := pair.1
       hasUserScopedRules := sorted.any (fun rule => rule.applies_to "user_input")
       hasAiScopedRules := sorted.any (fun rule => rule.applies_to "ai_output") },
     true)

/-- Source `_run_pipeline`: fold the matching rules over the text in stored order. -/
def run_pipeline {π : Type} (E : RegexEngine π) (rules : List (RuntimeRegexRule π))
    (text : String) (target_scope : String) : String :=
  rules.foldl
    (fun result rule =>
      if rule.applies_to target_scope then E.sub rule.compiled rule.replacement result
      else result)
    text

/-- Source `_is_enabled`. -/
def is_enabled (config : List (String × PyVal)) : Bool :=
  truthy (configGet config "enabled" (PyVal.bool true))

/-- A message-chain component: a `Plain` text segment or any other
component kind (carried opaquely). -/
inductive Component where
  | plain (text : String)
  | other (payload : PyVal)

/-- The `LLMResponse` surface the plugin touches: the optional structured
result chain and the flat completion text (`completion_text` /
`_completion_text` unified as one field). -/
structure LLMResponse where
  result_chain : Option (List Component)
  completion_text : String

/-- Modelled from the spec: the framework's `chain.get_plain_text()`, the
plain-text rendering of a chain — the concatenation of its `Plain`
segments' text (the framework method is outside this repository). -/
def getPlainText (comps : List Component) : String :=
  String.join (comps.filterMap (fun c =>
    match c with
    | Component.plain t => some t
    | _ => Option.none))

/-- The per-component transformation of `_apply_to_result_chain`: `Plain`
segments are rebuilt with the pipeline output (`component.text or ""` is the
identity on strings), others are appended unchanged. -/
def transformComponent {π : Type} (E : RegexEngine π) (rules : List (RuntimeRegexRule π)) :
    Component → Component
  | Component.plain t => Component.plain (run_pipeline E rules t "ai_output")
  | c => c

/-- Whether one component's text is changed by the pipeline. -/
def componentChanged {π : Type} (E : RegexEngine π) (rules : List (RuntimeRegexRule π)) :
    Component → Bool
  | Component.plain t => decide (run_pipeline E rules t "ai_output" ≠ t)
  | _ => false

/-- Source `_apply_to_result_chain` (lines 236-261): rebuild the chain with the
pipeline applied to `Plain` segments; only when some segment's text changed
is the chain replaced and the completion text overwritten with the chain's
plain-text rendering. Returns the mutation flag. -/
def apply_to_result_chain {π : Type} (E : RegexEngine π) (rules : List (RuntimeRegexRule π))
    (response : LLMResponse) : LLMResponse × Bool :=
  match response.result_chain with
  | Option.none => (response, false)
  | some comps =>
    let mutated := comps.any (componentChanged E rules)
    let new_components := comps.map (transformComponent E rules)
    if mutated then
      ({ result_chain := some new_components,
         completion_text := getPlainText new_components }, true)
    else (response, false)

/-- Source `_apply_to_completion_text` (lines 263-271). -/
def apply_to_completion_text {π : Type} (E : RegexEngine π) (rules : List (RuntimeRegexRule π))
    (response : LLMResponse) : LLMResponse × Bool :=
  let transformed_text := run_pipeline E rules response.completion_text "ai_output"
  if transformed_text = response.completion_text then (response, false)
  else ({ response with completion_text := transformed_text }, true)

/-- The body of `on_llm_response` after its guards (lines 227-228): the
result chain first; the completion-text fallback only when the chain pass
reported no change. The flag is `chain_changed or text_changed`. -/
def processResponse {π : Type} (E : RegexEngine π) (rules : List (RuntimeRegexRule π))
    (response : LLMResponse) : LLMResponse × Bool :=
  let chainPass := apply_to_result_chain E rules response
  let textPass := if chainPass.2 then (chainPass.1, false)
    else apply_to_completion_text E rules chainPass.1
  (textPass.1, chainPass.2 || textPass.2)

/-- Source `on_llm_response` (lines 215-234) as a transition on the cached state
and the response. -/
def on_llm_response {π : Type} (E : RegexEngine π) (jloads : String → Option PyVal)
    (config : List (String × PyVal)) (st : LabState π) (response : LLMResponse) :
    LabState π × LLMResponse :=
  if !is_enabled config then (st, response)
  else
    let st1 := (ensure_rules E jloads config st).1
    if !st1.hasAiScopedRules then (st1, response)
    else (st1, (processResponse E st1.compiledRules response).1)

/-- The `ProviderRequest` surface the plugin touches: `prompt` (any dynamic
value; only nonempty strings are rewritten) and the optional context list. -/
structure ProviderRequest where
  prompt : PyVal
  contexts : Option (List PyVal)

/-- One content segment of a context message (lines 292-303). In the Python
source a `"text"`-typed segment whose `text` value is not a string would
reach `re.sub` and raise; no modelled path exercises this, and the model
leaves such segments unchanged. -/
def processSegment {π : Type} (E : RegexEngine π) (rules : List (RuntimeRegexRule π))
    (segment : PyVal) : PyVal × Bool :=
  if !isDict segment then (segment, false)
  else
    match itemGet segment "type" PyVal.none with
    | PyVal.str "text" =>
      (match itemGet segment "text" (PyVal.str "") with
       | PyVal.str text_value =>
         let transformed := run_pipeline E rules text_value "user_input"
         if transformed ≠ text_value then
           (dictSet segment "text" (PyVal.str transformed), true)
         else (segment, false)
       | _ => (segment, false))
    | _ => (segment, false)

/-- One context message (lines 279-303): only dict messages with role
exactly `"user"` are eligible; a string content is piped directly, a list
content is walked segment by segment. -/
def processContextMessage {π : Type} (E : RegexEngine π) (rules : List (RuntimeRegexRule π))
    (message : PyVal) : PyVal × Bool :=
  if !isDict message then (message, false)
  else
    match itemGet message "role" PyVal.none with
    | PyVal.str "user" =>
      (match itemGet message "content" PyVal.none with
       | PyVal.str content =>
         let transformed := run_pipeline E rules content "user_input"
         if transformed ≠ content then
           (dictSet message "content" (PyVal.str transformed), true)
         else (message, false)
       | PyVal.list segments =>
         let results := segments.map (processSegment E rules)
         if results.any Prod.snd then
           (dictSet message "content" (PyVal.list (results.map Prod.fst)), true)
         else (message, false)
       | _ => (message, false))
    | _ => (message, false)

/-- Source `_apply_to_context_messages` (lines 273-305): `None` or an empty list is
falsy and reports no mutation. -/
def apply_to_context_messages {π : Type} (E : RegexEngine π) (rules : List (RuntimeRegexRule π))
    (contexts : Option (List PyVal)) : Option (List PyVal) × Bool :=
  match contexts with
  | Option.none => (Option.none, false)
  | some msgs =>
    if msgs.isEmpty then (some msgs, false)
    else
      let results := msgs.map (processContextMessage E rules)
      (some (results.map Prod.fst), results.any Prod.snd)

/-- Source `on_llm_request` (lines 184-213) as a transition on the cached state and
the request. -/
def on_llm_request {π : Type} (E : RegexEngine π) (jloads : String → Option PyVal)
    (config : List (String × PyVal)) (st : LabState π) (request : ProviderRequest) :
    LabState π × ProviderRequest :=
  if !is_enabled config then (st, request)
  else
    let st1 := (ensure_rules E jloads config st).1
    if !st1.hasUserScopedRules then (st1, request)
    else
      let request1 :=
        match request.prompt with
        | PyVal.str s =>
          if s ≠ "" then
            let transformed_prompt := run_pipeline E st1.compiledRules s "user_input"
            if transformed_prompt ≠ s then { request with prompt := PyVal.str transformed_prompt }
            else request
          else request
        | _ => request
      let ctxPass := apply_to_context_messages E st1.compiledRules request.contexts
      (st1, { request1 with contexts := ctxPass.1 })

/-- A concrete engine for witnesses: a pattern is its own compiled form
(compilation fails exactly on the lone unbalanced parenthesis), and
substitution replaces the text when it equals the pattern. -/
def litEngine : RegexEngine String where
  compile pat _ := if pat = "(" then Option.none else some pat
  sub pat repl text := if text = pat then repl else text

/-- A `json.loads` stand-in that fails on every input (used by witnesses
whose configuration has no `rules_json`). -/
def jlNone : String → Option PyVal := fun _ => Option.none

/-- Matching rules are folded over the text in list order; the others are
skipped entirely. -/
theorem run_pipeline_filter {π : Type} (E : RegexEngine π) (rules : List (RuntimeRegexRule π))
    (text target_scope : String) :
    run_pipeline E rules text target_scope =
      (rules.filter (fun rule => rule.applies_to target_scope)).foldl
        (fun result rule => E.sub rule.compiled rule.replacement result) text := by
  induction rules generalizing text with
  | nil => rfl
  | cons r rest ih =>
    cases h : r.applies_to target_scope with
    | false => simpa [run_pipeline, List.filter_cons, h] using ih text
    | true =>
      simpa [run_pipeline, List.filter_cons, h]
        using ih (E.sub r.compiled r.replacement text)

/-- A rule whose scope does not match the target scope can be removed from
anywhere in the pipeline without changing the result. -/
theorem run_pipeline_skip {π : Type} (E : RegexEngine π)
    (l1 l2 : List (RuntimeRegexRule π)) (r : RuntimeRegexRule π) (text target_scope : String)
    (h : r.applies_to target_scope = false) :
    run_pipeline E (l1 ++ r :: l2) text target_scope =
      run_pipeline E (l1 ++ l2) text target_scope := by
  simp [run_pipeline, List.foldl_append, h]

/-- C1 counterexample: a raw list with one malformed (non-dict) entry
contributes no fingerprint tuple at all, so the fingerprint does not have
one tuple per raw entry. -/
theorem c1_sentinel_counterexample :
    ((buildLists litEngine 0 [PyVal.str "oops"]).1).length ≠
      ([PyVal.str "oops"] : List PyVal).length := by
  decide

/-- C1 (amended): normalization contributes exactly one fingerprint tuple
per record-shaped (dict) raw entry — disabled or later-discarded dict
entries included — while non-dict entries are skipped and contribute
nothing; fingerprint computation is total. -/
theorem c1_one_tuple_per_dict_entry {π : Type} (E : RegexEngine π) (index : Nat)
    (raw : List PyVal) :
    ((buildLists E index raw).1).length = (raw.filter (fun item => isDict item)).length := by
  induction raw generalizing index with
  | nil => rfl
  | cons item rest ih =>
    cases h : isDict item with
    | false => simpa [buildLists, h, List.filter_cons] using ih (index + 1)
    | true => simpa [buildLists, h, List.filter_cons] using ih (index + 1)

/-- C2: when the computed fingerprint equals the stored one, a refresh
returns the stored state untouched (same compiled snapshot, fingerprint and
scope booleans), recompiles nothing, and does not re-log the summary. -/
theorem c2_cache_hit {π : Type} (E : RegexEngine π) (jloads : String → Option PyVal)
    (config : List (String × PyVal)) (st : LabState π)
    (h : (buildLists E 0 (rawRules jloads config)).1 = st.signature) :
    ensure_rules E jloads config st = (st, false) := by
  simp [ensure_rules, h]

/-- C2 witness: the empty configuration against the freshly initialized
state hits the cache and changes nothing. -/
theorem c2_cache_hit_witness :
    (buildLists litEngine 0 (rawRules jlNone [])).1 = ((initState : LabState String)).signature
    ∧ ensure_rules litEngine jlNone [] ((initState : LabState String)) = (initState, false) :=
  ⟨rfl, c2_cache_hit litEngine jlNone [] initState rfl⟩

/-- C3: the applicator folds exactly the rules whose scope matches the
target (each one's output feeding the next); a `"both"` rule matches both
scopes; a `"user_input"` rule never alters an `"ai_output"` run and vice
versa. -/
theorem c3_scope_routing {π : Type} (E : RegexEngine π)
    (rules l1 l2 : List (RuntimeRegexRule π)) (r : RuntimeRegexRule π) (text ts : String) :
    (run_pipeline E rules text ts =
      (rules.filter (fun rule => rule.applies_to ts)).foldl
        (fun result rule => E.sub rule.compiled rule.replacement result) text)
    ∧ (r.scope = "both" → r.applies_to "user_input" = true ∧ r.applies_to "ai_output" = true)
    ∧ (r.scope = "user_input" →
        run_pipeline E (l1 ++ r :: l2) text "ai_output" = run_pipeline E (l1 ++ l2) text "ai_output")
    ∧ (r.scope = "ai_output" →
        run_pipeline E (l1 ++ r :: l2) text "user_input" = run_pipeline E (l1 ++ l2) text "user_input") := by
  refine ⟨run_pipeline_filter E rules text ts, ?_, ?_, ?_⟩
  · intro h
    constructor <;> simp [RuntimeRegexRule.applies_to, h]
  · intro h
    exact run_pipeline_skip E l1 l2 r text "ai_output" (by simp [RuntimeRegexRule.applies_to, h])
  · intro h
    exact run_pipeline_skip E l1 l2 r text "user_input" (by simp [RuntimeRegexRule.applies_to, h])

/-- A concrete input-scoped rule for witnesses. -/
def ruleUI : RuntimeRegexRule String :=
  { identifier := "r1", scope := "user_input", order := 100, compiled := "abc",
    replacement := "z", origin_index := 0 }

/-- C3 witness: an input-scoped rule inserted into an output-scope run
changes nothing. -/
theorem c3_scope_routing_witness :
    ruleUI.scope = "user_input"
    ∧ run_pipeline litEngine ([] ++ ruleUI :: []) "abc" "ai_output" =
        run_pipeline litEngine ([] ++ []) "abc" "ai_output" :=
  ⟨rfl, (c3_scope_routing litEngine [] [] [] ruleUI "abc" "ai_output").2.2.1 rfl⟩

/-- A candidate produced from index `index` carries that index as its
original position. -/
theorem compileEntry_origin {π : Type} (E : RegexEngine π) (index : Nat) (item : PyVal)
    (r : RuntimeRegexRule π) (h : compileEntry E index item = some r) :
    r.origin_index = index := by
  simp only [compileEntry] at h
  repeat' split at h
  all_goals (cases h <;> rfl)

/-- Every candidate's original position lies in the index range of the
enumerated raw list. -/
theorem buildLists_origin_bounds {π : Type} (E : RegexEngine π) (index : Nat)
    (raw : List PyVal) :
    ∀ r ∈ (buildLists E index raw).2, index ≤ r.origin_index ∧ r.origin_index < index + raw.length := by
  induction raw generalizing index with
  | nil => intro r hr; simp [buildLists] at hr
  | cons item rest ih =>
    intro r hr
    cases hd : isDict item with
    | false =>
      simp only [buildLists, hd, Bool.false_eq_true, if_false] at hr
      have := ih (index + 1) r hr
      simp only [List.length_cons]
      omega
    | true =>
      simp only [buildLists, hd, if_true] at hr
      cases hc : compileEntry E index item with
      | none =>
        rw [hc] at hr
        have := ih (index + 1) r hr
        simp only [List.length_cons]
        omega
      | some cand =>
        rw [hc] at hr
        cases hr with
        | head =>
          have := compileEntry_origin E index item r hc
          simp only [List.length_cons]
          omega
        | tail _ hmem =>
          have := ih (index + 1) r hmem
          simp only [List.length_cons]
          omega

/-- Candidates come out of the enumeration loop with strictly increasing
original positions. -/
theorem buildLists_origin_pairwise {π : Type} (E : RegexEngine π) (index : Nat)
    (raw : List PyVal) :
    ((buildLists E index raw).2).Pairwise (fun a b => a.origin_index < b.origin_index) := by
  induction raw generalizing index with
  | nil => simp [buildLists]
  | cons item rest ih =>
    cases hd : isDict item with
    | false =>
      simp only [buildLists, hd, Bool.false_eq_true, if_false]
      exact ih (index + 1)
    | true =>
      simp only [buildLists, hd, if_true]
      cases hc : compileEntry E index item with
      | none => exact ih (index + 1)
      | some cand =>
        refine List.Pairwise.cons ?_ (ih (index + 1))
        intro b hb
        have hbound := buildLists_origin_bounds E (index + 1) rest b hb
        have horigin := compileEntry_origin E index item cand hc
        omega

/-- The sort key comparison is transitive. -/
theorem ruleLe_trans {π : Type} (a b c : RuntimeRegexRule π) :
    ruleLe a b = true → ruleLe b c = true → ruleLe a c = true := by
  simp only [ruleLe, Bool.or_eq_true, Bool.and_eq_true, decide_eq_true_eq]
  omega

/-- The sort key comparison is total. -/
theorem ruleLe_total {π : Type} (a b : RuntimeRegexRule π) :
    (ruleLe a b || ruleLe b a) = true := by
  simp only [ruleLe, Bool.or_eq_true, Bool.and_eq_true, decide_eq_true_eq]
  omega

/-- C4: whenever a refresh recompiles, the stored snapshot is ordered by
`order` ascending with ties broken by original declaration position
ascending — and the pipeline applies rules in exactly this stored order
(`run_pipeline_filter`). -/
theorem c4_snapshot_sorted {π : Type} (E : RegexEngine π) (jloads : String → Option PyVal)
    (config : List (String × PyVal)) (st : LabState π)
    (h : (ensure_rules E jloads config st).2 = true) :
    ((ensure_rules E jloads config st).1.compiledRules).Pairwise
      (fun a b => a.order < b.order ∨ (a.order = b.order ∧ a.origin_index < b.origin_index)) := by
  by_cases hc : (buildLists E 0 (rawRules jloads config)).1 = st.signature
  · simp [ensure_rules, hc] at h
  · have hgoal :
        (sortRules (buildLists E 0 (rawRules jloads config)).2).Pairwise
          (fun a b => a.order < b.order ∨ (a.order = b.order ∧ a.origin_index < b.origin_index)) := by
      have hsorted := @List.sorted_mergeSort _ ruleLe ruleLe_trans ruleLe_total
        (buildLists E 0 (rawRules jloads config)).2
      have hperm := List.mergeSort_perm (buildLists E 0 (rawRules jloads config)).2 ruleLe
      have hne : ((buildLists E 0 (rawRules jloads config)).2).Pairwise
          (fun a b => a.origin_index ≠ b.origin_index) :=
        (buildLists_origin_pairwise E 0 (rawRules jloads config)).imp (fun hlt => Nat.ne_of_lt hlt)
      have hne2 : (sortRules (buildLists E 0 (rawRules jloads config)).2).Pairwise
          (fun a b => a.origin_index ≠ b.origin_index) :=
        (List.Perm.pairwise_iff (fun hxy => hxy.symm) hperm).mpr hne
      refine (hsorted.and hne2).imp ?_
      intro a b hab
      rcases hab with ⟨hle, hne⟩
      simp only [ruleLe, Bool.or_eq_true, Bool.and_eq_true, decide_eq_true_eq] at hle
      omega
    simpa [ensure_rules, hc] using hgoal

/-- A configuration holding one well-formed rule under the legacy `rules`
field. -/
def cfgOneRule : List (String × PyVal) :=
  [("rules", PyVal.list [PyVal.dict [("pattern", PyVal.str "abc")]])]

/-- C4 witness: loading a one-rule configuration recompiles and yields a
sorted snapshot. -/
theorem c4_snapshot_sorted_witness :
    (ensure_rules litEngine jlNone cfgOneRule ((initState : LabState String))).2 = true
    ∧ ((ensure_rules litEngine jlNone cfgOneRule ((initState : LabState String))).1.compiledRules).Pairwise
      (fun a b => a.order < b.order ∨ (a.order = b.order ∧ a.origin_index < b.origin_index)) :=
  ⟨by decide, c4_snapshot_sorted litEngine jlNone cfgOneRule initState (by decide)⟩

/-- The enumeration loop distributes over list append, with the index
offset by the length of the first part. -/
theorem buildLists_append {π : Type} (E : RegexEngine π) (index : Nat)
    (xs ys : List PyVal) :
    buildLists E index (xs ++ ys) =
      ((buildLists E index xs).1 ++ (buildLists E (index + xs.length) ys).1,
       (buildLists E index xs).2 ++ (buildLists E (index + xs.length) ys).2) := by
  induction xs generalizing index with
  | nil => simp [buildLists]
  | cons item rest ih =>
    have hidx : index + 1 + rest.length = index + (rest.length + 1) := by omega
    cases hd : isDict item with
    | false =>
      simp only [List.cons_append, buildLists, hd, Bool.false_eq_true, if_false,
        List.length_cons, List.append_eq]
      rw [ih (index + 1), hidx]
    | true =>
      cases hc : compileEntry E index item with
      | none =>
        simp only [List.cons_append, buildLists, hd, if_true, hc,
          List.length_cons, List.append_eq]
        rw [ih (index + 1), hidx]
      | some cand =>
        simp only [List.cons_append, buildLists, hd, if_true, hc,
          List.length_cons, List.append_eq]
        rw [ih (index + 1), hidx]

/-- An entry is discarded by the compiler exactly when this predicate
holds: its pattern text is falsy (empty), or the pattern fails to compile
under its translated flags. -/
def badPattern {π : Type} (E : RegexEngine π) (index : Nat) (item : PyVal) : Prop :=
  truthy (itemGet item "pattern" (PyVal.str "")) = false ∨
    E.compile (normalizeEntry index item).pattern
      (flags_to_value (normalizeEntry index item).flags) = Option.none

/-- An entry with a falsy or uncompilable pattern produces no candidate. -/
theorem compileEntry_none_of_bad {π : Type} (E : RegexEngine π) (index : Nat)
    (item : PyVal) (hb : badPattern E index item) :
    compileEntry E index item = Option.none := by
  rcases hb with hb | hb
  · simp only [compileEntry]
    split
    · rfl
    · rw [if_pos]
      simp [hb]
  · simp only [compileEntry]
    split
    · rfl
    · split
      · rfl
      · rw [hb]

/-- C5: a rule whose pattern text is empty or fails to compile is absent
from the candidate list, and the discard leaves every other entry's
compilation untouched: the candidates are exactly those of the entries
before it followed by those of the entries after it (at their original
indices), with no error propagated (the builder is total). -/
theorem c5_bad_pattern_discarded {π : Type} (E : RegexEngine π)
    (pre post : List PyVal) (item : PyVal) (hd : isDict item = true)
    (hb : badPattern E pre.length item) :
    ((buildLists E 0 (pre ++ item :: post)).2 =
      (buildLists E 0 pre).2 ++ (buildLists E (pre.length + 1) post).2)
    ∧ ∀ r ∈ (buildLists E 0 (pre ++ item :: post)).2, r.origin_index ≠ pre.length := by
  have hcand := compileEntry_none_of_bad E pre.length item hb
  have hmain : (buildLists E 0 (pre ++ item :: post)).2 =
      (buildLists E 0 pre).2 ++ (buildLists E (pre.length + 1) post).2 := by
    rw [buildLists_append E 0 pre (item :: post)]
    simp only [buildLists, hd, if_true, Nat.zero_add, hcand]
  refine ⟨hmain, ?_⟩
  intro r hr
  rw [hmain] at hr
  rcases List.mem_append.mp hr with hr | hr
  · have := buildLists_origin_bounds E 0 pre r hr
    omega
  · have := buildLists_origin_bounds E (pre.length + 1) post r hr
    omega

/-- C5 witness: an uncompilable pattern (`"("`) between two good rules is
dropped while both neighbours compile at their original indices. -/
theorem c5_bad_pattern_discarded_witness :
    isDict (PyVal.dict [("pattern", PyVal.str "(")]) = true
    ∧ ((buildLists litEngine 0
          ([PyVal.dict [("pattern", PyVal.str "a")]] ++
            PyVal.dict [("pattern", PyVal.str "(")] :: [PyVal.dict [("pattern", PyVal.str "b")]])).2 =
        (buildLists litEngine 0 [PyVal.dict [("pattern", PyVal.str "a")]]).2 ++
          (buildLists litEngine ([PyVal.dict [("pattern", PyVal.str "a")]].length + 1)
            [PyVal.dict [("pattern", PyVal.str "b")]]).2) :=
  ⟨rfl,
    (c5_bad_pattern_discarded litEngine
      [PyVal.dict [("pattern", PyVal.str "a")]]
      [PyVal.dict [("pattern", PyVal.str "b")]]
      (PyVal.dict [("pattern", PyVal.str "(")]) rfl (Or.inr (by decide))).1⟩

/-- C6: an outbound response is processed chain-first — the completion-text
fallback runs only when the chain pass reported no change, in which case
that pass left the response untouched; the chain pass rewrites exactly the
`Plain` segments and passes every other segment through unmodified. -/
theorem c6_chain_first_fallback {π : Type} (E : RegexEngine π)
    (rules : List (RuntimeRegexRule π)) (resp : LLMResponse) :
    ((processResponse E rules resp).1 =
      if (apply_to_result_chain E rules resp).2 then (apply_to_result_chain E rules resp).1
      else (apply_to_completion_text E rules (apply_to_result_chain E rules resp).1).1)
    ∧ ((apply_to_result_chain E rules resp).2 = false →
        (apply_to_result_chain E rules resp).1 = resp)
    ∧ (∀ comps, resp.result_chain = some comps →
        (apply_to_result_chain E rules resp).1.result_chain =
          some (if (apply_to_result_chain E rules resp).2 then
            comps.map (transformComponent E rules) else comps))
    ∧ (∀ x, transformComponent E rules (Component.other x) = Component.other x) := by
  refine ⟨?_, ?_, ?_, fun x => rfl⟩
  · cases hch : (apply_to_result_chain E rules resp).2 with
    | false => simp [processResponse, hch]
    | true => simp [processResponse, hch]
  · intro h
    cases hres : resp.result_chain with
    | none => simp [apply_to_result_chain, hres]
    | some comps =>
      cases hm : comps.any (componentChanged E rules) with
      | false => simp [apply_to_result_chain, hres, hm]
      | true => simp [apply_to_result_chain, hres, hm] at h
  · intro comps hres
    cases hm : comps.any (componentChanged E rules) with
    | false => simp [apply_to_result_chain, hres, hm]
    | true => simp [apply_to_result_chain, hres, hm]

/-- A concrete response whose structured chain holds one plain segment. -/
def respBA : LLMResponse :=
  { result_chain := some [Component.plain "ba"], completion_text := "ba" }

/-- C6 witness: with no rules the chain pass reports no change and leaves
the response untouched, so the fallback operates on the original. -/
theorem c6_chain_first_fallback_witness :
    (apply_to_result_chain litEngine [] respBA).2 = false
    ∧ (apply_to_result_chain litEngine [] respBA).1 = respBA :=
  ⟨by decide, (c6_chain_first_fallback litEngine [] respBA).2.1 (by decide)⟩

/-- C10: whenever the chain pass reports a change, the flat completion text
of the resulting response is exactly the plain-text rendering of its
(transformed) chain. -/
theorem c10_completion_consistent {π : Type} (E : RegexEngine π)
    (rules : List (RuntimeRegexRule π)) (resp : LLMResponse)
    (h : (apply_to_result_chain E rules resp).2 = true) :
    (apply_to_result_chain E rules resp).1.completion_text =
      getPlainText (((apply_to_result_chain E rules resp).1.result_chain).getD []) := by
  cases hres : resp.result_chain with
  | none => simp [apply_to_result_chain, hres] at h
  | some comps =>
    cases hm : comps.any (componentChanged E rules) with
    | false => simp [apply_to_result_chain, hres, hm] at h
    | true => simp [apply_to_result_chain, hres, hm]

/-- A concrete output-scoped rule that rewrites the text `"ba"`. -/
def ruleAI : RuntimeRegexRule String :=
  { identifier := "r2", scope := "ai_output", order := 100, compiled := "ba",
    replacement := "c", origin_index := 0 }

/-- C10 witness: a rule that changes the single plain segment makes the
completion text the rendering of the new chain. -/
theorem c10_completion_consistent_witness :
    (apply_to_result_chain litEngine [ruleAI] respBA).2 = true
    ∧ (apply_to_result_chain litEngine [ruleAI] respBA).1.completion_text =
        getPlainText (((apply_to_result_chain litEngine [ruleAI] respBA).1.result_chain).getD []) :=
  ⟨by decide, c10_completion_consistent litEngine [ruleAI] respBA (by decide)⟩

/-- C7: with the global switch off both hooks return state and payload
untouched; with no input-scoped (resp. output-scoped) rule after the
refresh the request (resp. response) passes through unchanged; and on a
recompile the scope booleans say exactly whether some compiled rule
matches the corresponding scope. -/
theorem c7_noop_guards {π : Type} (E : RegexEngine π) (jloads : String → Option PyVal)
    (config : List (String × PyVal)) (st : LabState π) (req : ProviderRequest)
    (resp : LLMResponse) :
    (is_enabled config = false →
      on_llm_request E jloads config st req = (st, req)
      ∧ on_llm_response E jloads config st resp = (st, resp))
    ∧ ((ensure_rules E jloads config st).1.hasUserScopedRules = false →
        (on_llm_request E jloads config st req).2 = req)
    ∧ ((ensure_rules E jloads config st).1.hasAiScopedRules = false →
        (on_llm_response E jloads config st resp).2 = resp)
    ∧ ((ensure_rules E jloads config st).2 = true →
        (ensure_rules E jloads config st).1.hasUserScopedRules =
          ((ensure_rules E jloads config st).1.compiledRules).any
            (fun rule => rule.applies_to "user_input")
        ∧ (ensure_rules E jloads config st).1.hasAiScopedRules =
          ((ensure_rules E jloads config st).1.compiledRules).any
            (fun rule => rule.applies_to "ai_output")) := by
  refine ⟨?_, ?_, ?_, ?_⟩
  · intro h
    constructor <;> simp [on_llm_request, on_llm_response, h]
  · intro h
    cases he : is_enabled config with
    | false => simp [on_llm_request, he]
    | true => simp [on_llm_request, he, h]
  · intro h
    cases he : is_enabled config with
    | false => simp [on_llm_response, he]
    | true => simp [on_llm_response, he, h]
  · intro h
    by_cases hc : (buildLists E 0 (rawRules jloads config)).1 = st.signature
    · simp [ensure_rules, hc] at h
    · constructor <;> simp [ensure_rules, hc]

/-- A configuration with the global switch off. -/
def cfgDisabled : List (String × PyVal) := [("enabled", PyVal.bool false)]

/-- A concrete request for witnesses. -/
def reqHello : ProviderRequest := { prompt := PyVal.str "hello", contexts := Option.none }

/-- C7 witness: with `enabled: false` the request hook is an identity. -/
theorem c7_noop_guards_witness :
    is_enabled cfgDisabled = false
    ∧ on_llm_request litEngine jlNone cfgDisabled ((initState : LabState String)) reqHello =
        (initState, reqHello) :=
  ⟨by decide,
    ((c7_noop_guards litEngine jlNone cfgDisabled ((initState : LabState String)) reqHello respBA).1
      (by decide)).1⟩

/-- C9: a prompt that is the empty string, or not a string at all, is never
modified by the request hook (whatever the rules do, including rules whose
pattern matches the empty string). -/
theorem c9_empty_prompt_untouched {π : Type} (E : RegexEngine π) (jloads : String → Option PyVal)
    (config : List (String × PyVal)) (st : LabState π) (req : ProviderRequest)
    (h : req.prompt = PyVal.str "" ∨ ∀ s, req.prompt ≠ PyVal.str s) :
    (on_llm_request E jloads config st req).2.prompt = req.prompt := by
  obtain ⟨p, ctxs⟩ := req
  replace h : p = PyVal.str "" ∨ ∀ s, p ≠ PyVal.str s := h
  simp only [on_llm_request]
  split
  · rfl
  · split
    · rfl
    · cases hp : p with
      | str s =>
        have hs : s = "" := by
          rcases h with h1 | h2
          · rw [hp] at h1
            cases h1
            rfl
          · exact absurd hp (h2 s)
        subst hs
        simp
      | none => simp
      | bool b => simp
      | int n => simp
      | list xs => simp
      | dict es => simp

/-- A configuration with one input-scoped rule. -/
def cfgInputRule : List (String × PyVal) :=
  [("rules", PyVal.list
    [PyVal.dict [("pattern", PyVal.str "x"), ("scope", PyVal.str "user_input")]])]

/-- A request whose prompt is the empty string. -/
def reqEmpty : ProviderRequest := { prompt := PyVal.str "", contexts := Option.none }

/-- C9 witness: the empty-string prompt survives the request hook under an
input-scoped rule. -/
theorem c9_empty_prompt_untouched_witness :
    reqEmpty.prompt = PyVal.str ""
    ∧ (on_llm_request litEngine jlNone cfgInputRule ((initState : LabState String)) reqEmpty).2.prompt =
        reqEmpty.prompt :=
  ⟨rfl,
    c9_empty_prompt_untouched litEngine jlNone cfgInputRule ((initState : LabState String)) reqEmpty
      (Or.inl rfl)⟩

/-- A successful lookup means the configuration dict is nonempty. -/
theorem config_nonempty_of_lookup {config : List (String × PyVal)} {k : String} {v : PyVal}
    (h : pyLookup config k = some v) : config.isEmpty = false := by
  cases config with
  | nil => simp [pyLookup] at h
  | cons e rest => rfl

/-- C8 counterexample: `rules_json` present and parseable as a JSON array
(the empty array), yet the rules are taken from the legacy `rules` field
rather than from it. -/
theorem c8_preference_counterexample :
    (fun s => if s = "[]" then some (PyVal.list []) else Option.none : String → Option PyVal) "[]" =
        some (PyVal.list [])
    ∧ rawRules (fun s => if s = "[]" then some (PyVal.list []) else Option.none)
        [("rules_json", PyVal.str "[]"),
         ("rules", PyVal.list [PyVal.dict [("pattern", PyVal.str "x")]])] =
        [PyVal.dict [("pattern", PyVal.str "x")]]
    ∧ rawRules (fun s => if s = "[]" then some (PyVal.list []) else Option.none)
        [("rules_json", PyVal.str "[]"),
         ("rules", PyVal.list [PyVal.dict [("pattern", PyVal.str "x")]])] ≠ ([] : List PyVal) := by
  refine ⟨rfl, rfl, ?_⟩
  intro hcontra
  exact List.noConfusion
    (show (PyVal.dict [("pattern", PyVal.str "x")] :: ([] : List PyVal)) = [] from hcontra)

/-- C8 (amended): a present, non-blank `rules_json` string that parses to a
NON-EMPTY list is preferred over `rules`; when it is absent, not a string,
blank, fails to parse, parses to a non-list, or parses to the empty list,
the raw rules silently fall back to the list-valued `rules` field (the
selection is a total function — nothing is raised). -/
theorem c8_json_preference (jloads : String → Option PyVal)
    (config : List (String × PyVal)) :
    (∀ s xs, pyLookup config "rules_json" = some (PyVal.str s) → pyStrip s ≠ "" →
      jloads s = some (PyVal.list xs) → xs ≠ [] → rawRules jloads config = xs)
    ∧ (∀ s, pyLookup config "rules_json" = some (PyVal.str s) → pyStrip s ≠ "" →
        jloads s = Option.none → rawRules jloads config = legacyOf config)
    ∧ (∀ s v, pyLookup config "rules_json" = some (PyVal.str s) → pyStrip s ≠ "" →
        jloads s = some v → (∀ xs, v ≠ PyVal.list xs) → rawRules jloads config = legacyOf config)
    ∧ (∀ s, pyLookup config "rules_json" = some (PyVal.str s) → pyStrip s = "" →
        rawRules jloads config = legacyOf config)
    ∧ ((∀ s, pyLookup config "rules_json" ≠ some (PyVal.str s)) →
        rawRules jloads config = legacyOf config)
    ∧ (∀ s, pyLookup config "rules_json" = some (PyVal.str s) → pyStrip s ≠ "" →
        jloads s = some (PyVal.list []) → rawRules jloads config = legacyOf config) := by
  refine ⟨?_, ?_, ?_, ?_, ?_, ?_⟩
  · intro s xs hlook htrim hjl hne
    have hne2 : xs.isEmpty = false := by
      cases xs with
      | nil => exact absurd rfl hne
      | cons y ys => rfl
    simp [rawRules, config_nonempty_of_lookup hlook, hlook, htrim, hjl, hne2]
  · intro s hlook htrim hjl
    simp [rawRules, legacyOf, config_nonempty_of_lookup hlook, hlook, htrim, hjl]
  · intro s v hlook htrim hjl hnl
    cases v with
    | list xs => exact absurd rfl (hnl xs)
    | none => simp [rawRules, legacyOf, config_nonempty_of_lookup hlook, hlook, htrim, hjl]
    | bool b => simp [rawRules, legacyOf, config_nonempty_of_lookup hlook, hlook, htrim, hjl]
    | int n => simp [rawRules, legacyOf, config_nonempty_of_lookup hlook, hlook, htrim, hjl]
    | str t => simp [rawRules, legacyOf, config_nonempty_of_lookup hlook, hlook, htrim, hjl]
    | dict es => simp [rawRules, legacyOf, config_nonempty_of_lookup hlook, hlook, htrim, hjl]
  · intro s hlook htrim
    simp [rawRules, legacyOf, config_nonempty_of_lookup hlook, hlook, htrim]
  · intro hnone
    cases hc : config.isEmpty with
    | true =>
      have : config = [] := by
        cases config with
        | nil => rfl
        | cons e rest => simp at hc
      subst this
      rfl
    | false =>
      cases hlook : pyLookup config "rules_json" with
      | none => simp [rawRules, legacyOf, hc, hlook]
      | some v =>
        cases v with
        | str s => exact absurd hlook (hnone s)
        | none => simp [rawRules, legacyOf, hc, hlook]
        | bool b => simp [rawRules, legacyOf, hc, hlook]
        | int n => simp [rawRules, legacyOf, hc, hlook]
        | list xs => simp [rawRules, legacyOf, hc, hlook]
        | dict es => simp [rawRules, legacyOf, hc, hlook]
  · intro s hlook htrim hjl
    simp [rawRules, legacyOf, config_nonempty_of_lookup hlook, hlook, htrim, hjl]

/-- C8 witness: a non-blank `rules_json` parsing to a one-element list is
preferred over the absent `rules` field. -/
theorem c8_json_preference_witness :
    (fun s => if s = "[ ]" then some (PyVal.list [PyVal.dict []]) else Option.none :
        String → Option PyVal) "[ ]" = some (PyVal.list [PyVal.dict []])
    ∧ rawRules (fun s => if s = "[ ]" then some (PyVal.list [PyVal.dict []]) else Option.none)
        [("rules_json", PyVal.str "[ ]")] = [PyVal.dict []] :=
  ⟨rfl,
    (c8_json_preference (fun s => if s = "[ ]" then some (PyVal.list [PyVal.dict []]) else Option.none)
      [("rules_json", PyVal.str "[ ]")]).1 "[ ]" [PyVal.dict []] rfl (by decide) rfl
      (fun hcontra => List.noConfusion (show (PyVal.dict [] :: ([] : List PyVal)) = [] from hcontra))⟩
